import Mathlib

/-!
Shallow embedding of `accounts/models.py` from django-organizations.

The file defines three Django models — `Account`, `AccountUser`,
`AccountOwner` — over a shared abstract base `AccountsBase` that carries
`created` / `modified` timestamps.  We embed the stored database state as
explicit lists of rows and each Python method as a function from state to
`Except DjError State` (Django exceptions become the `error` side).

Modelling conventions, each one taken from Django's documented semantics:
* primary keys and foreign keys are `Nat` row ids; a forward foreign-key
  attribute access (`self.user`, `self.account`, `self.account_user`)
  fetches the referenced row from the state and raises `DoesNotExist`
  when it is absent;
* `Model.save` is update-or-insert keyed by primary key; the database
  layer enforces the declared constraints (`unique=True` on
  `Account.subdomain` / `Account.domain` with NULLs exempt,
  `unique_together = ('user', 'account')` on `AccountUser`, uniqueness of
  both `OneToOneField` columns of `AccountOwner`, and foreign-key
  existence), surfacing violations as `IntegrityError`;
* `auto_now_add` sets `created` on insert only, `auto_now` sets
  `modified` on every save; saves take the current time as a `now`
  argument;
* deleting an `AccountUser` cascades to any `AccountOwner` row whose
  `account_user` column references it (Django's default `on_delete`);
* the reverse one-to-one accessor `account.owner` queries the
  `AccountOwner` table by `account` id and raises `DoesNotExist` when no
  row matches;
* a Django `Manager` is a class attribute that is not accessible from a
  model instance: evaluating `self.objects` raises `AttributeError`.
-/

/-- A row of the external `auth.User` table (first/last name are the only
fields this fragment reads). -/
structure User where
  id : Nat
  first_name : String
  last_name : String
deriving Repr, DecidableEq

/-- A row of the `Account` table: `name`, optional unique `subdomain` and
`domain` (`null=True`, so the column holds `Option String`), `is_active`,
plus the `AccountsBase` timestamps. -/
structure Account where
  id : Nat
  name : String
  subdomain : Option String
  domain : Option String
  is_active : Bool
  created : Nat
  modified : Nat
deriving Repr, DecidableEq

/-- A row of the `AccountUser` table: foreign keys to `User` and
`Account`, an `is_admin` flag, plus timestamps. -/
structure AccountUser where
  id : Nat
  user : Nat
  account : Nat
  is_admin : Bool
  created : Nat
  modified : Nat
deriving Repr, DecidableEq

/-- A row of the `AccountOwner` table: one-to-one columns `account` and
`account_user`, plus timestamps. -/
structure AccountOwner where
  id : Nat
  account : Nat
  account_user : Nat
  created : Nat
  modified : Nat
deriving Repr, DecidableEq

/-- The stored database state: one list of rows per table. -/
structure State where
  users : List User
  accounts : List Account
  accountUsers : List AccountUser
  accountOwners : List AccountOwner
deriving Repr, DecidableEq

/-- The exceptions the embedded code can raise: Python `AttributeError`,
Django `DoesNotExist` and `IntegrityError`, and the two domain exceptions
from `accounts.exceptions`. -/
inductive DjError where
  | attributeError (msg : String)
  | doesNotExist (msg : String)
  | integrityError (msg : String)
  | ownershipRequired (msg : String)
  | accountMismatch
deriving Repr, DecidableEq

/-- Fetch a `User` row by primary key (forward FK attribute access). -/
def getUser (s : State) (pk : Nat) : Except DjError User :=
  match s.users.find? (fun u => u.id == pk) with
  | some u => .ok u
  | none => .error (.doesNotExist "User matching query does not exist.")

/-- Fetch an `Account` row by primary key (forward FK attribute access). -/
def getAccount (s : State) (pk : Nat) : Except DjError Account :=
  match s.accounts.find? (fun a => a.id == pk) with
  | some a => .ok a
  | none => .error (.doesNotExist "Account matching query does not exist.")

/-- Fetch an `AccountUser` row by primary key (forward FK attribute
access). -/
def getAccountUser (s : State) (pk : Nat) : Except DjError AccountUser :=
  match s.accountUsers.find? (fun b => b.id == pk) with
  | some b => .ok b
  | none => .error (.doesNotExist "AccountUser matching query does not exist.")

/-- The reverse one-to-one accessor `account.owner` (from
`OneToOneField(Account, related_name="owner")`): the `AccountOwner` row
whose `account` column equals the given account id, raising
`DoesNotExist` when there is none. -/
def accountOwnerOf (s : State) (accountId : Nat) : Except DjError AccountOwner :=
  match s.accountOwners.find? (fun o => o.account == accountId) with
  | some o => .ok o
  | none => .error (.doesNotExist "AccountOwner matching query does not exist.")

/-- Update-or-insert an `Account` row keyed by primary key: any existing
row with the same id is replaced. -/
def putAccount (l : List Account) (a : Account) : List Account :=
  l.filter (fun b => b.id != a.id) ++ [a]

/-- Update-or-insert an `AccountUser` row keyed by primary key. -/
def putAccountUser (l : List AccountUser) (b : AccountUser) : List AccountUser :=
  l.filter (fun c => c.id != b.id) ++ [b]

/-- Update-or-insert an `AccountOwner` row keyed by primary key. -/
def putAccountOwner (l : List AccountOwner) (o : AccountOwner) : List AccountOwner :=
  l.filter (fun c => c.id != o.id) ++ [o]

/-- Apply the `AccountsBase` timestamp rules to an `Account` being saved:
`modified` is set to the save time (`auto_now`); `created` is kept from
the stored row on update and set to the save time on insert
(`auto_now_add`). -/
def stampAccount (now : Nat) (s : State) (a : Account) : Account :=
  match s.accounts.find? (fun b => b.id == a.id) with
  | some old => { a with created := old.created, modified := now }
  | none => { a with created := now, modified := now }

/-- Timestamp rules for an `AccountUser` being saved. -/
def stampAccountUser (now : Nat) (s : State) (b : AccountUser) : AccountUser :=
  match s.accountUsers.find? (fun c => c.id == b.id) with
  | some old => { b with created := old.created, modified := now }
  | none => { b with created := now, modified := now }

/-- Timestamp rules for an `AccountOwner` being saved. -/
def stampAccountOwner (now : Nat) (s : State) (o : AccountOwner) : AccountOwner :=
  match s.accountOwners.find? (fun c => c.id == o.id) with
  | some old => { o with created := old.created, modified := now }
  | none => { o with created := now, modified := now }

/-- The database write behind `Model.save` for `Account`: enforces the
declared `unique=True` constraints on `subdomain` and `domain` (NULL
values are exempt, as in SQL) against every other row, then writes the
timestamped row. -/
def dbSaveAccount (now : Nat) (s : State) (a : Account) : Except DjError State :=
  if ∃ b ∈ s.accounts, b.id ≠ a.id ∧
      ((a.subdomain ≠ none ∧ b.subdomain = a.subdomain) ∨
       (a.domain ≠ none ∧ b.domain = a.domain)) then
    .error (.integrityError "column subdomain/domain is not unique")
  else
    .ok { s with accounts := putAccount s.accounts (stampAccount now s a) }

/-- The database write behind `Model.save` for `AccountUser`: enforces
foreign-key existence for `user` and `account` and the
`unique_together = ('user', 'account')` constraint, then writes the
timestamped row. -/
def dbSaveAccountUser (now : Nat) (s : State) (b : AccountUser) : Except DjError State :=
  if ¬ ∃ u ∈ s.users, u.id = b.user then
    .error (.integrityError "foreign key constraint failed: user")
  else if ¬ ∃ a ∈ s.accounts, a.id = b.account then
    .error (.integrityError "foreign key constraint failed: account")
  else if ∃ c ∈ s.accountUsers, c.id ≠ b.id ∧ c.user = b.user ∧ c.account = b.account then
    .error (.integrityError "columns user_id, account_id are not unique")
  else
    .ok { s with accountUsers := putAccountUser s.accountUsers (stampAccountUser now s b) }

/-- The database write behind `Model.save` for `AccountOwner`: enforces
foreign-key existence and the uniqueness of both `OneToOneField` columns
(`account` and `account_user`), then writes the timestamped row. -/
def dbSaveAccountOwner (now : Nat) (s : State) (o : AccountOwner) : Except DjError State :=
  if ¬ ∃ a ∈ s.accounts, a.id = o.account then
    .error (.integrityError "foreign key constraint failed: account")
  else if ¬ ∃ b ∈ s.accountUsers, b.id = o.account_user then
    .error (.integrityError "foreign key constraint failed: account_user")
  else if ∃ c ∈ s.accountOwners, c.id ≠ o.id ∧
      (c.account = o.account ∨ c.account_user = o.account_user) then
    .error (.integrityError "column account_id/account_user_id is not unique")
  else
    .ok { s with accountOwners := putAccountOwner s.accountOwners (stampAccountOwner now s o) }

/-- `Account.save`: normalizes an empty-string `subdomain` or `domain` to
NULL (`None`), then delegates to the inherited save (the database
write). -/
def Account.save (now : Nat) (s : State) (self : Account) : Except DjError State :=
  let self := if self.subdomain = some "" then { self with subdomain := none } else self
  let self := if self.domain = some "" then { self with domain := none } else self
  dbSaveAccount now s self

/-- Accessing the `objects` manager through an `Account` instance: Django
managers are only reachable from the model class, so this always raises
`AttributeError`. -/
def Account.instanceManager (_self : Account) : Except DjError Unit :=
  .error (.attributeError "Manager is not accessible via Account instances")

/-- Modelled from the spec: the membership check `Account.is_member` was
evidently intended to test whether an `AccountUser` row links the given
user to this account (the manager code it calls, `AccountManager` in
`accounts/managers.py`, is not part of this fragment).  This is the
side-effect-free existence test the spec describes. -/
def memberRecordExists (s : State) (accountId userId : Nat) : Bool :=
  s.accountUsers.any (fun b => b.account == accountId && b.user == userId)

/-- `Account.is_member`: the body evaluates
`self.objects.users.filter(user=user)`, whose very first step — the
attribute access `self.objects` — raises `AttributeError`, so the
intended existence test after it is unreachable. -/
def Account.is_member (s : State) (self : Account) (userId : Nat) : Except DjError Bool :=
  match Account.instanceManager self with
  | .error e => .error e
  | .ok _ => .ok (memberRecordExists s self.id userId)

/-- `AccountUser.delete`: loads `self.account`, then its reverse
one-to-one `owner` row; if that owner row's own primary key equals this
membership's primary key it raises `OwnershipRequired` (with the
message's missing space exactly as in the source, which concatenates two
adjacent string literals), otherwise it delegates to the inherited
delete, which removes the row and cascades to any `AccountOwner` row
referencing it. -/
def AccountUser.delete (s : State) (self : AccountUser) : Except DjError State :=
  match getAccount s self.account with
  | .error e => .error e
  | .ok acct =>
    match accountOwnerOf s acct.id with
    | .error e => .error e
    | .ok owner =>
      if owner.id = self.id then
        .error (.ownershipRequired
          "Cannot delete account owner beforeaccount or transferring ownership")
      else
        .ok { s with
          accountUsers := s.accountUsers.filter (fun b => b.id != self.id),
          accountOwners := s.accountOwners.filter (fun o => o.account_user != self.id) }

/-- `AccountUser.full_name`: loads `self.user` and renders
`u"%s %s" % (first_name, last_name)`. -/
def AccountUser.full_name (s : State) (self : AccountUser) : Except DjError String :=
  match getUser s self.user with
  | .error e => .error e
  | .ok u => .ok (u.first_name ++ " " ++ u.last_name)

/-- `AccountOwner.save`: loads `self.account_user`, that membership's
`account`, and `self.account`; if the two accounts differ (Django model
equality compares primary keys) it raises `AccountMismatch` before any
database write, otherwise it delegates to the inherited save. -/
def AccountOwner.save (now : Nat) (s : State) (self : AccountOwner) : Except DjError State :=
  match getAccountUser s self.account_user with
  | .error e => .error e
  | .ok au =>
    match getAccount s au.account with
    | .error e => .error e
    | .ok auAcct =>
      match getAccount s self.account with
      | .error e => .error e
      | .ok selfAcct =>
        if auAcct.id ≠ selfAcct.id then
          .error .accountMismatch
        else
          dbSaveAccountOwner now s self

/-- One mutating operation of the fragment, from state to state: a
successful `Account.save`, an inherited `AccountUser` save (creation or
update of a membership), an `AccountUser.delete`, or an
`AccountOwner.save`. -/
inductive Step : State → State → Prop where
  | accountSave (now : Nat) (a : Account) {s s' : State} :
      Account.save now s a = .ok s' → Step s s'
  | accountUserSave (now : Nat) (b : AccountUser) {s s' : State} :
      dbSaveAccountUser now s b = .ok s' → Step s s'
  | accountUserDelete (b : AccountUser) {s s' : State} :
      AccountUser.delete s b = .ok s' → Step s s'
  | accountOwnerSave (now : Nat) (o : AccountOwner) {s s' : State} :
      AccountOwner.save now s o = .ok s' → Step s s'

/-- A stored state reachable by the fragment's operations, starting from
a state with no accounts, memberships or owner rows (the external user
table is arbitrary, since users are managed by `contrib.auth`). -/
inductive Reachable : State → Prop where
  | init (users : List User) : Reachable ⟨users, [], [], []⟩
  | step {s s' : State} : Reachable s → Step s s' → Reachable s'

/-- The `unique_together = ('user', 'account')` invariant: no two
distinct `AccountUser` rows share the same (user, account) pair. -/
def pairUnique (s : State) : Prop :=
  s.accountUsers.Pairwise (fun a b => a.user ≠ b.user ∨ a.account ≠ b.account)

/-- The one-to-one invariant on `AccountOwner`: no two distinct rows
share an `account`, and no two share an `account_user`. -/
def ownerUnique (s : State) : Prop :=
  s.accountOwners.Pairwise (fun a b => a.account ≠ b.account ∧ a.account_user ≠ b.account_user)

lemma getUser_ok_id {s : State} {pk : Nat} {u : User} (h : getUser s pk = .ok u) :
    u.id = pk ∧ u ∈ s.users := by
  unfold getUser at h
  split at h
  next v hf =>
    cases h
    exact ⟨by simpa using List.find?_some hf, List.mem_of_find?_eq_some hf⟩
  next => simp at h

lemma getAccount_ok_id {s : State} {pk : Nat} {a : Account} (h : getAccount s pk = .ok a) :
    a.id = pk ∧ a ∈ s.accounts := by
  unfold getAccount at h
  split at h
  next v hf =>
    cases h
    exact ⟨by simpa using List.find?_some hf, List.mem_of_find?_eq_some hf⟩
  next => simp at h

lemma getAccountUser_ok_id {s : State} {pk : Nat} {b : AccountUser}
    (h : getAccountUser s pk = .ok b) : b.id = pk ∧ b ∈ s.accountUsers := by
  unfold getAccountUser at h
  split at h
  next v hf =>
    cases h
    exact ⟨by simpa using List.find?_some hf, List.mem_of_find?_eq_some hf⟩
  next => simp at h

lemma accountOwnerOf_ok {s : State} {aid : Nat} {o : AccountOwner}
    (h : accountOwnerOf s aid = .ok o) : o.account = aid ∧ o ∈ s.accountOwners := by
  unfold accountOwnerOf at h
  split at h
  next v hf =>
    cases h
    exact ⟨by simpa using List.find?_some hf, List.mem_of_find?_eq_some hf⟩
  next => simp at h

lemma stampAccount_fields (now : Nat) (s : State) (a : Account) :
    (stampAccount now s a).id = a.id ∧ (stampAccount now s a).name = a.name ∧
    (stampAccount now s a).subdomain = a.subdomain ∧
    (stampAccount now s a).domain = a.domain ∧
    (stampAccount now s a).is_active = a.is_active := by
  unfold stampAccount
  split <;> simp

lemma stampAccountUser_fields (now : Nat) (s : State) (b : AccountUser) :
    (stampAccountUser now s b).id = b.id ∧ (stampAccountUser now s b).user = b.user ∧
    (stampAccountUser now s b).account = b.account ∧
    (stampAccountUser now s b).is_admin = b.is_admin := by
  unfold stampAccountUser
  split <;> simp

lemma stampAccountOwner_fields (now : Nat) (s : State) (o : AccountOwner) :
    (stampAccountOwner now s o).id = o.id ∧ (stampAccountOwner now s o).account = o.account ∧
    (stampAccountOwner now s o).account_user = o.account_user := by
  unfold stampAccountOwner
  split <;> simp

lemma mem_putAccount {l : List Account} {a r : Account} :
    r ∈ putAccount l a ↔ (r ∈ l ∧ r.id ≠ a.id) ∨ r = a := by
  simp [putAccount, List.mem_filter, List.mem_append]

lemma mem_putAccountUser {l : List AccountUser} {b r : AccountUser} :
    r ∈ putAccountUser l b ↔ (r ∈ l ∧ r.id ≠ b.id) ∨ r = b := by
  simp [putAccountUser, List.mem_filter, List.mem_append]

lemma mem_putAccountOwner {l : List AccountOwner} {o r : AccountOwner} :
    r ∈ putAccountOwner l o ↔ (r ∈ l ∧ r.id ≠ o.id) ∨ r = o := by
  simp [putAccountOwner, List.mem_filter, List.mem_append]

def normalizedBlank (self : Account) : Account :=
  { self with
      subdomain := if self.subdomain = some "" then none else self.subdomain,
      domain := if self.domain = some "" then none else self.domain }

lemma account_save_eq (now : Nat) (s : State) (self : Account) :
    Account.save now s self = dbSaveAccount now s (normalizedBlank self) := by
  unfold Account.save normalizedBlank
  by_cases hsub : self.subdomain = some "" <;> by_cases hdom : self.domain = some "" <;>
    simp [hsub, hdom]

lemma account_save_ok_shape {now : Nat} {s : State} {self : Account} {s' : State}
    (h : Account.save now s self = .ok s') :
    s' = { s with
      accounts := putAccount s.accounts (stampAccount now s (normalizedBlank self)) } := by
  rw [account_save_eq] at h
  unfold dbSaveAccount at h
  split at h
  · exact absurd h (by simp)
  · exact (Except.ok.inj h).symm

lemma dbSaveAccountUser_ok_shape {now : Nat} {s : State} {b : AccountUser} {s' : State}
    (h : dbSaveAccountUser now s b = .ok s') :
    s' = { s with accountUsers := putAccountUser s.accountUsers (stampAccountUser now s b) } ∧
    ∀ c ∈ s.accountUsers, c.id ≠ b.id → ¬(c.user = b.user ∧ c.account = b.account) := by
  unfold dbSaveAccountUser at h
  split at h
  · exact absurd h (by simp)
  · split at h
    · exact absurd h (by simp)
    · split at h
      · exact absurd h (by simp)
      · rename_i hdup
        exact ⟨(Except.ok.inj h).symm,
          fun c hc hcid hand => hdup ⟨c, hc, hcid, hand.1, hand.2⟩⟩

lemma dbSaveAccountOwner_ok_shape {now : Nat} {s : State} {o : AccountOwner} {s' : State}
    (h : dbSaveAccountOwner now s o = .ok s') :
    s' = { s with accountOwners := putAccountOwner s.accountOwners (stampAccountOwner now s o) } ∧
    ∀ c ∈ s.accountOwners, c.id ≠ o.id →
      c.account ≠ o.account ∧ c.account_user ≠ o.account_user := by
  unfold dbSaveAccountOwner at h
  split at h
  · exact absurd h (by simp)
  · split at h
    · exact absurd h (by simp)
    · split at h
      · exact absurd h (by simp)
      · rename_i hdup
        refine ⟨(Except.ok.inj h).symm, fun c hc hcid => ?_⟩
        constructor
        · exact fun hacc => hdup ⟨c, hc, hcid, Or.inl hacc⟩
        · exact fun hau => hdup ⟨c, hc, hcid, Or.inr hau⟩

lemma accountUser_delete_ok_shape {s : State} {self : AccountUser} {s' : State}
    (h : AccountUser.delete s self = .ok s') :
    s' = { s with
      accountUsers := s.accountUsers.filter (fun b => b.id != self.id),
      accountOwners := s.accountOwners.filter (fun o => o.account_user != self.id) } := by
  unfold AccountUser.delete at h
  split at h
  · exact absurd h (by simp)
  · split at h
    · exact absurd h (by simp)
    · split at h
      · exact absurd h (by simp)
      · exact (Except.ok.inj h).symm

lemma accountOwner_save_ok_shape {now : Nat} {s : State} {o : AccountOwner} {s' : State}
    (h : AccountOwner.save now s o = .ok s') :
    s' = { s with accountOwners := putAccountOwner s.accountOwners (stampAccountOwner now s o) } ∧
    ∀ c ∈ s.accountOwners, c.id ≠ o.id →
      c.account ≠ o.account ∧ c.account_user ≠ o.account_user := by
  unfold AccountOwner.save at h
  split at h
  · exact absurd h (by simp)
  · split at h
    · exact absurd h (by simp)
    · split at h
      · exact absurd h (by simp)
      · split at h
        · exact absurd h (by simp)
        · exact dbSaveAccountOwner_ok_shape h

lemma pairUnique_step {s s' : State} (st : Step s s') (h : pairUnique s) : pairUnique s' := by
  cases st with
  | accountSave now a hok =>
      rw [account_save_ok_shape hok]
      exact h
  | accountUserSave now b hok =>
      obtain ⟨rfl, hguard⟩ := dbSaveAccountUser_ok_shape hok
      unfold pairUnique at h ⊢
      unfold putAccountUser
      rw [List.pairwise_append]
      refine ⟨h.sublist (List.filter_sublist _), List.pairwise_singleton _ _, ?_⟩
      intro x hx y hy
      rw [List.mem_filter] at hx
      rw [List.mem_singleton] at hy
      subst hy
      obtain ⟨hxmem, hxid⟩ := hx
      rw [bne_iff_ne] at hxid
      have hid : (stampAccountUser now s b).id = b.id := (stampAccountUser_fields now s b).1
      have huser : (stampAccountUser now s b).user = b.user := (stampAccountUser_fields now s b).2.1
      have hacc : (stampAccountUser now s b).account = b.account :=
        (stampAccountUser_fields now s b).2.2.1
      rw [hid] at hxid
      have := hguard x hxmem hxid
      rw [huser, hacc]
      by_cases hu : x.user = b.user
      · exact Or.inr (fun hc => this ⟨hu, hc⟩)
      · exact Or.inl hu
  | accountUserDelete b hok =>
      rw [accountUser_delete_ok_shape hok]
      exact h.sublist (List.filter_sublist _)
  | accountOwnerSave now o hok =>
      obtain ⟨rfl, -⟩ := accountOwner_save_ok_shape hok
      exact h

lemma ownerUnique_step {s s' : State} (st : Step s s') (h : ownerUnique s) : ownerUnique s' := by
  cases st with
  | accountSave now a hok =>
      rw [account_save_ok_shape hok]
      exact h
  | accountUserSave now b hok =>
      obtain ⟨rfl, -⟩ := dbSaveAccountUser_ok_shape hok
      exact h
  | accountUserDelete b hok =>
      rw [accountUser_delete_ok_shape hok]
      exact h.sublist (List.filter_sublist _)
  | accountOwnerSave now o hok =>
      obtain ⟨rfl, hguard⟩ := accountOwner_save_ok_shape hok
      unfold ownerUnique at h ⊢
      unfold putAccountOwner
      rw [List.pairwise_append]
      refine ⟨h.sublist (List.filter_sublist _), List.pairwise_singleton _ _, ?_⟩
      intro x hx y hy
      rw [List.mem_filter] at hx
      rw [List.mem_singleton] at hy
      subst hy
      obtain ⟨hxmem, hxid⟩ := hx
      rw [bne_iff_ne] at hxid
      have hid : (stampAccountOwner now s o).id = o.id := (stampAccountOwner_fields now s o).1
      have hacc : (stampAccountOwner now s o).account = o.account :=
        (stampAccountOwner_fields now s o).2.1
      have hau : (stampAccountOwner now s o).account_user = o.account_user :=
        (stampAccountOwner_fields now s o).2.2
      rw [hid] at hxid
      rw [hacc, hau]
      exact hguard x hxmem hxid

/-- C3: for every `Account`, a successful `save` whose `subdomain` or
`domain` field holds the empty string stores that field as absent
(`none`), not as the empty string: the saved row (the unique row with the
account's id) exists in the resulting state, and each field that was
`some ""` on the input is `none` on the stored row. -/
theorem account_save_blank_to_null (now : Nat) (s : State) (self : Account) (s' : State)
    (hok : Account.save now s self = .ok s') :
    (∃ r ∈ s'.accounts, r.id = self.id) ∧
    ∀ r ∈ s'.accounts, r.id = self.id →
      (self.subdomain = some "" → r.subdomain = none) ∧
      (self.domain = some "" → r.domain = none) := by
  rw [account_save_ok_shape hok]
  obtain ⟨hid, hname, hsub, hdom, hact⟩ := stampAccount_fields now s (normalizedBlank self)
  constructor
  · refine ⟨stampAccount now s (normalizedBlank self), mem_putAccount.mpr (Or.inr rfl), ?_⟩
    rw [hid]
    rfl
  · intro r hr hrid
    rcases mem_putAccount.mp hr with ⟨hmem, hne⟩ | rfl
    · exfalso
      apply hne
      rw [hid]
      exact hrid
    · constructor
      · intro hb
        rw [hsub]
        simp [normalizedBlank, hb]
      · intro hb
        rw [hdom]
        simp [normalizedBlank, hb]

def c3Init : State := ⟨[], [], [], []⟩

def c3Input : Account := ⟨1, "Acme", some "", some "", true, 0, 0⟩

def c3After : State := ⟨[], [⟨1, "Acme", none, none, true, 7, 7⟩], [], []⟩

/-- Witness for C3 at a concrete input: saving an account whose
`subdomain` and `domain` are both the empty string. -/
theorem account_save_blank_to_null_witness :
    (∃ r ∈ c3After.accounts, r.id = c3Input.id) ∧
    ∀ r ∈ c3After.accounts, r.id = c3Input.id →
      (c3Input.subdomain = some "" → r.subdomain = none) ∧
      (c3Input.domain = some "" → r.domain = none) :=
  account_save_blank_to_null 7 c3Init c3Input c3After rfl

/-- C9: a successful `Account.save` changes no table other than the
accounts table, keeps every other account row unchanged, and stores the
saved row with `name` and `is_active` exactly as on the input account
(only `subdomain`, `domain` and the auto-maintained timestamps are
rewritten). -/
theorem account_save_frame (now : Nat) (s : State) (self : Account) (s' : State)
    (hok : Account.save now s self = .ok s') :
    s'.users = s.users ∧ s'.accountUsers = s.accountUsers ∧
    s'.accountOwners = s.accountOwners ∧
    (∀ r ∈ s.accounts, r.id ≠ self.id → r ∈ s'.accounts) ∧
    (∀ r ∈ s'.accounts, r.id ≠ self.id → r ∈ s.accounts) ∧
    (∀ r ∈ s'.accounts, r.id = self.id →
      r.name = self.name ∧ r.is_active = self.is_active) := by
  rw [account_save_ok_shape hok]
  obtain ⟨hid, hname, hsub, hdom, hact⟩ := stampAccount_fields now s (normalizedBlank self)
  refine ⟨rfl, rfl, rfl, ?_, ?_, ?_⟩
  · intro r hr hrne
    refine mem_putAccount.mpr (Or.inl ⟨hr, ?_⟩)
    rw [hid]
    exact hrne
  · intro r hr hrne
    rcases mem_putAccount.mp hr with ⟨hmem, -⟩ | rfl
    · exact hmem
    · exfalso
      apply hrne
      rw [hid]
      rfl
  · intro r hr hrid
    rcases mem_putAccount.mp hr with ⟨hmem, hne⟩ | rfl
    · exfalso
      apply hne
      rw [hid]
      exact hrid
    · exact ⟨by rw [hname]; rfl, by rw [hact]; rfl⟩

def c9Init : State :=
  ⟨[], [⟨1, "Acme", none, none, true, 0, 0⟩, ⟨2, "Beta", some "b", none, false, 0, 0⟩], [], []⟩

def c9Input : Account := ⟨1, "Acme Renamed", some "", none, true, 0, 0⟩

def c9After : State :=
  ⟨[], [⟨2, "Beta", some "b", none, false, 0, 0⟩, ⟨1, "Acme Renamed", none, none, true, 0, 9⟩],
   [], []⟩

/-- Witness for C9 at a concrete input: re-saving account 1 in a state
that also holds account 2. -/
theorem account_save_frame_witness :
    c9After.users = c9Init.users ∧ c9After.accountUsers = c9Init.accountUsers ∧
    c9After.accountOwners = c9Init.accountOwners ∧
    (∀ r ∈ c9Init.accounts, r.id ≠ c9Input.id → r ∈ c9After.accounts) ∧
    (∀ r ∈ c9After.accounts, r.id ≠ c9Input.id → r ∈ c9Init.accounts) ∧
    (∀ r ∈ c9After.accounts, r.id = c9Input.id →
      r.name = c9Input.name ∧ r.is_active = c9Input.is_active) :=
  account_save_frame 9 c9Init c9Input c9After rfl

/-- C10: the blank-to-null normalization in `Account.save` applies only
to the exact empty string: on a successful save, a `subdomain` or
`domain` value different from `some ""` — including a whitespace-only
string such as `some " "` and the already-absent value `none` — is
stored unchanged. -/
theorem account_save_exact_blank_only (now : Nat) (s : State) (self : Account) (s' : State)
    (hok : Account.save now s self = .ok s') :
    ∀ r ∈ s'.accounts, r.id = self.id →
      (self.subdomain ≠ some "" → r.subdomain = self.subdomain) ∧
      (self.domain ≠ some "" → r.domain = self.domain) := by
  rw [account_save_ok_shape hok]
  obtain ⟨hid, hname, hsub, hdom, hact⟩ := stampAccount_fields now s (normalizedBlank self)
  intro r hr hrid
  rcases mem_putAccount.mp hr with ⟨hmem, hne⟩ | rfl
  · exfalso
    apply hne
    rw [hid]
    exact hrid
  · constructor
    · intro hns
      rw [hsub]
      simp [normalizedBlank, hns]
    · intro hnd
      rw [hdom]
      simp [normalizedBlank, hnd]

def c10Init : State := ⟨[], [], [], []⟩

def c10Input : Account := ⟨2, "Beta", some " ", none, true, 0, 0⟩

def c10After : State := ⟨[], [⟨2, "Beta", some " ", none, true, 3, 3⟩], [], []⟩

/-- Witness for C10 at a concrete input: saving an account whose
`subdomain` is the whitespace-only string `" "` and whose `domain` is
already absent leaves both values exactly as they were. -/
theorem account_save_exact_blank_only_witness :
    (⟨2, "Beta", some " ", none, true, 3, 3⟩ : Account).subdomain = c10Input.subdomain ∧
    (⟨2, "Beta", some " ", none, true, 3, 3⟩ : Account).domain = c10Input.domain :=
  ⟨(account_save_exact_blank_only 3 c10Init c10Input c10After rfl
      ⟨2, "Beta", some " ", none, true, 3, 3⟩ (by decide) rfl).1 (by decide),
   (account_save_exact_blank_only 3 c10Init c10Input c10After rfl
      ⟨2, "Beta", some " ", none, true, 3, 3⟩ (by decide) rfl).2 (by decide)⟩

/-- C4: `Account.is_member` does not return a membership boolean at all:
its body evaluates `self.objects`, and a Django manager is not
accessible through a model instance, so the call raises
`AttributeError` for every account, every user and every stored state —
the existence test the docstring promises is unreachable. -/
theorem account_is_member_attribute_error (s : State) (self : Account) (userId : Nat) :
    Account.is_member s self userId =
      .error (.attributeError "Manager is not accessible via Account instances") := rfl

/-- C7: `AccountUser.full_name` returns the linked user's first name,
one space, and the linked user's last name; it is a pure read (the state
is consumed, never produced, so no side effects are possible). -/
theorem accountUser_full_name_spec (s : State) (self : AccountUser) (u : User)
    (h : getUser s self.user = .ok u) :
    AccountUser.full_name s self = .ok (u.first_name ++ " " ++ u.last_name) := by
  unfold AccountUser.full_name
  rw [h]

def c7State : State := ⟨[⟨1, "Jane", "Doe"⟩], [⟨1, "Acme", none, none, true, 0, 0⟩],
  [⟨1, 1, 1, false, 0, 0⟩], []⟩

def c7Member : AccountUser := ⟨1, 1, 1, false, 0, 0⟩

/-- Witness for C7 at a concrete input: the display name of Jane Doe. -/
theorem accountUser_full_name_spec_witness :
    AccountUser.full_name c7State c7Member = .ok ("Jane" ++ " " ++ "Doe") :=
  accountUser_full_name_spec c7State c7Member ⟨1, "Jane", "Doe"⟩ rfl

/-- C8: for every membership whose account exists but has no
`AccountOwner` row, `delete` does not fall through to a silent non-owner
deletion: the reverse accessor `self.account.owner` raises
`DoesNotExist`, so `delete` returns that error and no row is removed. -/
theorem accountUser_delete_missing_owner (s : State) (self : AccountUser) (acct : Account)
    (hacct : getAccount s self.account = .ok acct)
    (hno : ∀ o ∈ s.accountOwners, o.account ≠ self.account) :
    AccountUser.delete s self =
      .error (.doesNotExist "AccountOwner matching query does not exist.") := by
  obtain ⟨haid, -⟩ := getAccount_ok_id hacct
  have howner : accountOwnerOf s acct.id =
      .error (.doesNotExist "AccountOwner matching query does not exist.") := by
    unfold accountOwnerOf
    have hf : s.accountOwners.find? (fun o => o.account == acct.id) = none := by
      rw [List.find?_eq_none]
      intro o ho
      simp only [beq_iff_eq, haid]
      exact hno o ho
    rw [hf]
  unfold AccountUser.delete
  simp only [hacct, howner]

def c8State : State := ⟨[⟨1, "Jane", "Doe"⟩], [⟨1, "Acme", none, none, true, 0, 0⟩],
  [⟨1, 1, 1, false, 0, 0⟩], []⟩

def c8Member : AccountUser := ⟨1, 1, 1, false, 0, 0⟩

/-- Witness for C8 at a concrete input: deleting the only membership of
an account that has no owner row. -/
theorem accountUser_delete_missing_owner_witness :
    AccountUser.delete c8State c8Member =
      .error (.doesNotExist "AccountOwner matching query does not exist.") :=
  accountUser_delete_missing_owner c8State c8Member ⟨1, "Acme", none, none, true, 0, 0⟩ rfl
    (by decide)

/-- C2: `AccountOwner.save` raises `AccountMismatch` exactly when the
referenced membership's account differs from the owner row's account
(model equality compares primary keys), and the error is returned in
place of any state, so nothing stored changes; when the two accounts
agree, save delegates to the inherited persistence write. -/
theorem accountOwner_save_mismatch_guard (now : Nat) (s : State) (self : AccountOwner)
    (au : AccountUser) (aa sa : Account)
    (hau : getAccountUser s self.account_user = .ok au)
    (haa : getAccount s au.account = .ok aa)
    (hsa : getAccount s self.account = .ok sa) :
    (au.account ≠ self.account →
      AccountOwner.save now s self = .error .accountMismatch) ∧
    (au.account = self.account →
      AccountOwner.save now s self = dbSaveAccountOwner now s self) := by
  obtain ⟨haaid, -⟩ := getAccount_ok_id haa
  obtain ⟨hsaid, -⟩ := getAccount_ok_id hsa
  unfold AccountOwner.save
  simp only [hau, haa, hsa]
  constructor
  · intro hne
    have h1 : aa.id ≠ sa.id := by
      rw [haaid, hsaid]
      exact hne
    rw [if_pos h1]
  · intro heq
    have h1 : aa.id = sa.id := by
      rw [haaid, hsaid]
      exact heq
    rw [if_neg (not_not_intro h1)]

def c2State : State :=
  ⟨[⟨1, "Jane", "Doe"⟩],
   [⟨1, "Acme", none, none, true, 0, 0⟩, ⟨2, "Beta", none, none, true, 0, 0⟩],
   [⟨1, 1, 1, false, 0, 0⟩], []⟩

def c2Owner : AccountOwner := ⟨1, 2, 1, 0, 0⟩

/-- Witness for C2 at a concrete input: an owner row for account 2 whose
membership belongs to account 1 is rejected with `AccountMismatch`. -/
theorem accountOwner_save_mismatch_guard_witness :
    AccountOwner.save 5 c2State c2Owner = .error .accountMismatch :=
  (accountOwner_save_mismatch_guard 5 c2State c2Owner ⟨1, 1, 1, false, 0, 0⟩
    ⟨1, "Acme", none, none, true, 0, 0⟩ ⟨2, "Beta", none, none, true, 0, 0⟩
    rfl rfl rfl).1 (by decide)

def c1State : State :=
  ⟨[⟨1, "Jane", "Doe"⟩, ⟨2, "John", "Roe"⟩],
   [⟨1, "Acme", none, none, true, 0, 0⟩],
   [⟨1, 1, 1, false, 0, 0⟩, ⟨2, 2, 1, false, 0, 0⟩],
   [⟨1, 1, 2, 0, 0⟩]⟩

def c1OwnerMember : AccountUser := ⟨2, 2, 1, false, 0, 0⟩

/-- C1 fails on the code: membership 2 of account 1 is the account's
designated owner (the account's single `AccountOwner` row, pk 1, has
`account_user = 2`), yet `delete` succeeds and removes it, because the
guard compares the owner row's own pk (1) with the membership's pk (2) —
`self.account.owner.id == self.id` — instead of comparing the owner
row's `account_user` pk.  The cascade even removes the owner row. -/
theorem accountUser_delete_owner_not_guarded :
    accountOwnerOf c1State c1OwnerMember.account = .ok ⟨1, 1, 2, 0, 0⟩ ∧
    (⟨1, 1, 2, 0, 0⟩ : AccountOwner).account_user = c1OwnerMember.id ∧
    AccountUser.delete c1State c1OwnerMember =
      .ok ⟨[⟨1, "Jane", "Doe"⟩, ⟨2, "John", "Roe"⟩],
           [⟨1, "Acme", none, none, true, 0, 0⟩],
           [⟨1, 1, 1, false, 0, 0⟩], []⟩ :=
  ⟨rfl, rfl, rfl⟩

/-- C5: in every reachable stored state the
`unique_together = ('user', 'account')` invariant holds — no two
distinct membership rows share a (user, account) pair — and the
database layer rejects any attempted write of a duplicate pair under a
different primary key with an `IntegrityError`, so every operation
preserves the invariant. -/
theorem accountUser_pair_unique (s : State) (h : Reachable s) :
    pairUnique s ∧
    ∀ (now : Nat) (b : AccountUser),
      (∃ c ∈ s.accountUsers, c.id ≠ b.id ∧ c.user = b.user ∧ c.account = b.account) →
      ∃ msg, dbSaveAccountUser now s b = .error (.integrityError msg) := by
  constructor
  · induction h with
    | init users => exact List.Pairwise.nil
    | step hr st ih => exact pairUnique_step st ih
  · intro now b hdup
    unfold dbSaveAccountUser
    by_cases h1 : ∃ u ∈ s.users, u.id = b.user
    · rw [if_neg (not_not_intro h1)]
      by_cases h2 : ∃ a ∈ s.accounts, a.id = b.account
      · rw [if_neg (not_not_intro h2), if_pos hdup]
        exact ⟨_, rfl⟩
      · rw [if_pos h2]
        exact ⟨_, rfl⟩
    · rw [if_pos h1]
      exact ⟨_, rfl⟩

/-- Witness for C5 at a concrete input: a state reached by creating a
user store, saving an account, and saving one membership. -/
theorem accountUser_pair_unique_witness :
    pairUnique ⟨[⟨1, "Jane", "Doe"⟩], [⟨1, "Acme", none, none, true, 1, 1⟩],
      [⟨1, 1, 1, false, 2, 2⟩], []⟩ := by
  have r0 : Reachable (⟨[⟨1, "Jane", "Doe"⟩], [], [], []⟩ : State) := Reachable.init _
  have r1 : Reachable (⟨[⟨1, "Jane", "Doe"⟩], [⟨1, "Acme", none, none, true, 1, 1⟩],
      [], []⟩ : State) :=
    r0.step (Step.accountSave 1 ⟨1, "Acme", none, none, true, 0, 0⟩ rfl)
  have r2 : Reachable (⟨[⟨1, "Jane", "Doe"⟩], [⟨1, "Acme", none, none, true, 1, 1⟩],
      [⟨1, 1, 1, false, 2, 2⟩], []⟩ : State) :=
    r1.step (Step.accountUserSave 2 ⟨1, 1, 1, false, 0, 0⟩ rfl)
  exact (accountUser_pair_unique _ r2).1

/-- C6: in every reachable stored state the one-to-one invariants on
`AccountOwner` hold — no two distinct owner rows share an `account` and
no two share an `account_user` — and the database layer rejects any
attempted write that would duplicate either column under a different
primary key with an `IntegrityError`, so every operation preserves the
invariant. -/
theorem accountOwner_one_to_one (s : State) (h : Reachable s) :
    ownerUnique s ∧
    ∀ (now : Nat) (o : AccountOwner),
      (∃ c ∈ s.accountOwners, c.id ≠ o.id ∧
        (c.account = o.account ∨ c.account_user = o.account_user)) →
      ∃ msg, dbSaveAccountOwner now s o = .error (.integrityError msg) := by
  constructor
  · induction h with
    | init users => exact List.Pairwise.nil
    | step hr st ih => exact ownerUnique_step st ih
  · intro now o hdup
    unfold dbSaveAccountOwner
    by_cases h1 : ∃ a ∈ s.accounts, a.id = o.account
    · rw [if_neg (not_not_intro h1)]
      by_cases h2 : ∃ b ∈ s.accountUsers, b.id = o.account_user
      · rw [if_neg (not_not_intro h2), if_pos hdup]
        exact ⟨_, rfl⟩
      · rw [if_pos h2]
        exact ⟨_, rfl⟩
    · rw [if_pos h1]
      exact ⟨_, rfl⟩

/-- Witness for C6 at a concrete input: a state reached by saving an
account, a membership, and the owner row binding them. -/
theorem accountOwner_one_to_one_witness :
    ownerUnique ⟨[⟨1, "Jane", "Doe"⟩], [⟨1, "Acme", none, none, true, 1, 1⟩],
      [⟨1, 1, 1, false, 2, 2⟩], [⟨1, 1, 1, 3, 3⟩]⟩ := by
  have r0 : Reachable (⟨[⟨1, "Jane", "Doe"⟩], [], [], []⟩ : State) := Reachable.init _
  have r1 : Reachable (⟨[⟨1, "Jane", "Doe"⟩], [⟨1, "Acme", none, none, true, 1, 1⟩],
      [], []⟩ : State) :=
    r0.step (Step.accountSave 1 ⟨1, "Acme", none, none, true, 0, 0⟩ rfl)
  have r2 : Reachable (⟨[⟨1, "Jane", "Doe"⟩], [⟨1, "Acme", none, none, true, 1, 1⟩],
      [⟨1, 1, 1, false, 2, 2⟩], []⟩ : State) :=
    r1.step (Step.accountUserSave 2 ⟨1, 1, 1, false, 0, 0⟩ rfl)
  have r3 : Reachable (⟨[⟨1, "Jane", "Doe"⟩], [⟨1, "Acme", none, none, true, 1, 1⟩],
      [⟨1, 1, 1, false, 2, 2⟩], [⟨1, 1, 1, 3, 3⟩]⟩ : State) :=
    r2.step (Step.accountOwnerSave 3 ⟨1, 1, 1, 0, 0⟩ rfl)
  exact (accountOwner_one_to_one _ r3).1
